import Mathlib

/- Shallow embedding of the journey drive-through memory timeline:
   the memory registry (src/src/World/MemoryManager.js), the
   proximity/activation engine (src/src/World/World.js), the vehicle
   controller (src/src/World/Car.js, timeline variant) and the camera rig
   (src/src/Experience/Camera.js, rig variant).  Machine reals of the
   source are embedded as rationals; all numeric literals of the source
   are exactly representable.  Euclidean distance comparisons of the
   source are embedded as comparisons of squared distances against
   squared thresholds, which is equivalent because both sides are
   nonnegative. -/

namespace Journey

/- Executable rational arithmetic.  The standard Rat.add, Rat.sub and
   Rat.mul are marked irreducible in the library, which blocks kernel
   evaluation of concrete runs; the mirrors below are plain definitions
   built on mkRat, and the bridge lemmas identify them with the
   standard operations so that symbolic proofs can use the ordered
   field structure of ℚ. -/

/-- Executable rational addition. -/
def qadd (a b : ℚ) : ℚ := mkRat (a.num * b.den + b.num * a.den) (a.den * b.den)

/-- Executable rational multiplication. -/
def qmul (a b : ℚ) : ℚ := mkRat (a.num * b.num) (a.den * b.den)

/-- Executable rational negation. -/
def qneg (a : ℚ) : ℚ := mkRat (-a.num) a.den

/-- Executable rational subtraction. -/
def qsub (a b : ℚ) : ℚ := qadd a (qneg b)

/-- Executable minimum. -/
def qmin (a b : ℚ) : ℚ := if a ≤ b then a else b

/-- Executable maximum. -/
def qmax (a b : ℚ) : ℚ := if a ≤ b then b else a

/-- Executable absolute value, embedding Math.abs. -/
def qabs (a : ℚ) : ℚ := if a < 0 then qneg a else a

/-- A 3D vector with rational components, embedding THREE.Vector3 and
CANNON.Vec3 values of the source. -/
structure Vec3 where
  x : ℚ
  y : ℚ
  z : ℚ
deriving DecidableEq, Repr

/-- A quaternion, embedding CANNON.Quaternion values of the source. -/
structure Vec4 where
  x : ℚ
  y : ℚ
  z : ℚ
  w : ℚ
deriving DecidableEq, Repr

/-- Squared Euclidean distance; the source computes
carPosition.distanceTo(landmark.position) and compares it with
nonnegative thresholds, which is equivalent to comparing squares. -/
def dist2 (a b : Vec3) : ℚ :=
  qadd (qadd (qmul (qsub a.x b.x) (qsub a.x b.x)) (qmul (qsub a.y b.y) (qsub a.y b.y)))
    (qmul (qsub a.z b.z) (qsub a.z b.z))

/-- One entry of the memory data structure of MemoryManager.js. -/
structure Memory where
  id : String
  title : String
  worldPosition : Vec3
  order : ℕ
deriving DecidableEq, Repr

/-- The fixed memory list built in the MemoryManager constructor. -/
def memories : List Memory :=
  [ ⟨"memory-1", "Early Days", ⟨-8, 0, 20⟩, 1⟩,
    ⟨"memory-2", "First Steps", ⟨8, 0, 50⟩, 2⟩,
    ⟨"memory-3", "Growing Up", ⟨-8, 0, 80⟩, 3⟩,
    ⟨"memory-4", "School Years", ⟨8, 0, 120⟩, 4⟩,
    ⟨"memory-5", "Friendship", ⟨-8, 0, 160⟩, 5⟩,
    ⟨"memory-6", "Adventure", ⟨8, 0, 200⟩, 6⟩,
    ⟨"memory-7", "Milestone", ⟨-8, 0, 240⟩, 7⟩,
    ⟨"memory-8", "Reflection", ⟨8, 0, 280⟩, 8⟩,
    ⟨"memory-9", "Transformation", ⟨-8, 0, 320⟩, 9⟩,
    ⟨"memory-10", "New Chapter", ⟨8, 0, 360⟩, 10⟩,
    ⟨"memory-11", "Looking Forward", ⟨-8, 0, 400⟩, 11⟩,
    ⟨"memory-12", "Future", ⟨8, 0, 440⟩, 12⟩ ]

/-- The mutable state of the MemoryManager: activeMemoryId, activeMemory
and previousMemoryId. -/
structure MMState where
  activeMemoryId : Option String
  activeMemory : Option Memory
  previousMemoryId : Option String
deriving DecidableEq, Repr

/-- MemoryManager.getMemoryById: linear find over the memory list, null
when absent. -/
def getMemoryById (memoryId : String) : Option Memory :=
  memories.find? (fun m => m.id == memoryId)

/-- MemoryManager.setActiveMemory: early return when already active,
otherwise shift the active id into previousMemoryId and look the new
memory up. -/
def setActiveMemory (memoryId : String) (s : MMState) : MMState :=
  if s.activeMemoryId = some memoryId then s
  else
    { previousMemoryId := s.activeMemoryId
      activeMemoryId := some memoryId
      activeMemory := getMemoryById memoryId }

/-- MemoryManager.clearActiveMemory: shifts the active id into
previousMemoryId and nulls the active fields. -/
def clearActiveMemory (s : MMState) : MMState :=
  { previousMemoryId := s.activeMemoryId
    activeMemoryId := none
    activeMemory := none }

/-- The MemoryManager state right after construction. -/
def initMMState : MMState :=
  { activeMemoryId := none, activeMemory := none, previousMemoryId := none }

/- ----------------------------------------------------------------------
   Proximity / activation engine (src/src/World/World.js).
   A landmark is identified by its index in the memoryLandmarks array;
   the source compares landmark object references, and distinct array
   entries are distinct references, so reference equality is index
   equality.  The visual side effects driven by the intensity (scale,
   emissive and color lerps on the render materials) are presentation
   state outside the activation engine and are not modelled.
   ---------------------------------------------------------------------- -/

/-- The per-landmark data the activation engine reads: the fixed world
position and the linked memory id (always a nonempty id string for
landmarks built from the registry, so the source truthiness test on
memoryId passes). -/
structure WLandmark where
  position : Vec3
  memoryId : String
deriving DecidableEq, Repr

/-- World.proximityRadius. -/
def proximityRadius : ℚ := 15

/-- World.highlightSpeed, the source literal 0.05. -/
def highlightSpeed : ℚ := mkRat 5 100

/-- The mutable activation state of World.update: the index of
currentHighlightedLandmark, the per-landmark highlightIntensity values,
and the MemoryManager it notifies. -/
structure WorldState where
  current : Option ℕ
  intensities : List ℚ
  mm : MMState
deriving DecidableEq, Repr

/-- The closest-landmark search of World.update: a fold over the
landmarks carrying (index, squared distance) of the best candidate;
none plays the role of the initial Infinity distance.  The source test
is distance < proximityRadius AND distance < closestDistance, embedded
on squared distances. -/
def selectClosest (carPos : Vec3) : ℕ → Option (ℕ × ℚ) → List Vec3 → Option (ℕ × ℚ)
  | _, acc, [] => acc
  | j, acc, p :: rest =>
    let d2 := dist2 carPos p
    let acc2 :=
      match acc with
      | none => if d2 < qmul proximityRadius proximityRadius then some (j, d2) else acc
      | some (k, best) =>
        if d2 < qmul proximityRadius proximityRadius ∧ d2 < best then some (j, d2)
        else some (k, best)
    selectClosest carPos (j + 1) acc2 rest

/-- Resetting the highlight intensity of the previously highlighted
landmark to 0, as the source does before storing a new selection; none
means there was no previous highlight and the list is untouched. -/
def setPrev (prev : Option ℕ) (l : List ℚ) : List ℚ :=
  match prev with
  | some j => l.set j 0
  | none => l

/-- The highlight-state transition of World.update (the branch on
closestLandmark versus currentHighlightedLandmark): on a change, the
previous highlight intensity is reset to 0, the selection is stored and
the MemoryManager is notified of a newly found landmark; the second
branch is kept exactly as in the source even though it sits in the
unreachable else position. -/
def worldSelectPhase (sel : Option ℕ) (landmarks : List WLandmark) (s : WorldState) :
    WorldState :=
  if sel ≠ s.current then
    { current := sel
      intensities := setPrev s.current s.intensities
      mm :=
        match sel with
        | some j =>
          match landmarks[j]? with
          | some lm => setActiveMemory lm.memoryId s.mm
          | none => s.mm
        | none => s.mm }
  else if sel = none ∧ s.current ≠ none then
    { current := none
      intensities := setPrev s.current s.intensities
      mm := clearActiveMemory s.mm }
  else s

/-- The per-landmark smooth transition of World.update: the current
landmark moves toward 1 by highlightSpeed, every other landmark moves
toward 0, clamped to [0,1]; the index argument tracks the position in
the list. -/
def updateIntensities (cur : Option ℕ) : ℕ → List ℚ → List ℚ
  | _, [] => []
  | j, v :: rest =>
    (if cur = some j then qmin 1 (qadd v highlightSpeed) else qmax 0 (qsub v highlightSpeed)) ::
      updateIntensities cur (j + 1) rest

/-- World.update: a silent no-op while the car is not initialized,
otherwise the nearest-landmark search, the highlight-state transition
and the intensity easing, in source order. -/
def worldUpdate (car : Option Vec3) (landmarks : List WLandmark) (s : WorldState) :
    WorldState :=
  match car with
  | none => s
  | some carPos =>
    let sel :=
      (selectClosest carPos 0 none (landmarks.map (fun lm => lm.position))).map Prod.fst
    let s1 := worldSelectPhase sel landmarks s
    { s1 with intensities := updateIntensities s1.current 0 s1.intensities }

/-- The two-landmark registry of the C1 scenario: A at z = 20 before B
at z = 50 in registry order, both on the travel axis so that the
vehicle at z = 35 is at distance exactly 15 from each. -/
def c1Landmarks : List WLandmark :=
  [⟨⟨0, 0, 20⟩, "memory-1"⟩, ⟨⟨0, 0, 50⟩, "memory-2"⟩]

/-- The activation state before the C1 scenario starts. -/
def c1State0 : WorldState := ⟨none, [0, 0], initMMState⟩

/-- One engine tick of the C1 scenario at car position p. -/
def c1Tick (p : Vec3) (s : WorldState) : WorldState :=
  worldUpdate (some p) c1Landmarks s

/- ----------------------------------------------------------------------
   Camera rig (src/src/Experience/Camera.js, CameraRig variant).
   The orbit offset is the spherical-to-Cartesian conversion of
   (orbitYaw, orbitPitch) scaled by followDistance; the source computes
   it with host Math.sin and Math.cos, whose values are transcendental,
   so the offset triple enters the embedding as a parameter.  The
   position blending logic below does not depend on its value.  The
   lookAt re-aim consumes the rig position and the car position each
   tick without storing state and is not modelled.
   ---------------------------------------------------------------------- -/

/-- Camera.followDistance of the rig variant. -/
def followDistance : ℚ := 12

/-- Camera.followHeight of the rig variant. -/
def followHeight : ℚ := 5

/-- Camera.rigSmoothness, the source literal 0.1. -/
def rigSmoothness : ℚ := mkRat 1 10

/-- The teleport-detection distance threshold, the source literal 20 in
the snap test of Camera.update. -/
def snapThreshold : ℚ := 20

/-- The minimum rig height, the source literal minHeight = 2. -/
def minCamHeight : ℚ := 2

/-- The mutable rig state: currentRigPosition (the interpolation
carrier) and the rig object position copied from it each tick. -/
structure CamState where
  currentRigPosition : Vec3
  rigPosition : Vec3
deriving DecidableEq, Repr

/-- The freshly computed target rig position of Camera.update: car
position plus orbit offset, followHeight added on y, then clamped to
the minimum world height. -/
def camTargetPos (carPos offset : Vec3) : Vec3 :=
  let t : Vec3 := ⟨qadd carPos.x offset.x, qadd carPos.y (qadd followHeight offset.y),
    qadd carPos.z offset.z⟩
  if t.y < minCamHeight then ⟨t.x, minCamHeight, t.z⟩ else t

/-- THREE.Vector3.lerp: componentwise a + (b - a) * t. -/
def lerpVec (a b : Vec3) (t : ℚ) : Vec3 :=
  ⟨qadd a.x (qmul (qsub b.x a.x) t), qadd a.y (qmul (qsub b.y a.y) t),
    qadd a.z (qmul (qsub b.z a.z) t)⟩

/-- Camera.update of the rig variant: a silent no-op while the car is
not initialized; otherwise compute the target rig position, snap to it
when the current rig position is more than snapThreshold away
(teleport detection), interpolate at the fixed rate otherwise, and copy
the result onto the rig object. -/
def camUpdate (car : Option Vec3) (offset : Vec3) (cs : CamState) : CamState :=
  match car with
  | none => cs
  | some carPos =>
    if qmul snapThreshold snapThreshold <
        dist2 cs.currentRigPosition (camTargetPos carPos offset) then
      { currentRigPosition := camTargetPos carPos offset
        rigPosition := camTargetPos carPos offset }
    else
      { currentRigPosition := lerpVec cs.currentRigPosition (camTargetPos carPos offset)
          rigSmoothness
        rigPosition := lerpVec cs.currentRigPosition (camTargetPos carPos offset)
          rigSmoothness }

/- ----------------------------------------------------------------------
   Vehicle controller (src/src/World/Car.js, timeline variant: the
   fixed-heading car with navigateTo and teleport).  The rigid body is
   a CANNON body whose relevant state is position, velocity, angular
   velocity, orientation quaternion and the force accumulator fed by
   applyForce and consumed by the next physics step.
   ---------------------------------------------------------------------- -/

/-- Car.mass. -/
def carMass : ℚ := 800

/-- Car.maxSpeed. -/
def maxSpeed : ℚ := 25

/-- Car.acceleration. -/
def acceleration : ℚ := 25

/-- Car.brakingForce. -/
def brakingForce : ℚ := 20

/-- Car.colliderOffset, the source literal 0.1. -/
def colliderOffset : ℚ := mkRat 1 10

/-- Car.height, the source literal 0.6. -/
def carHeight : ℚ := mkRat 3 5

/-- Car.navigationArrivalDistance. -/
def navigationArrivalDistance : ℚ := 2

/-- The navigation speed, the source literal 15 inside Car.update. -/
def navigationSpeed : ℚ := 15

/-- The idle damping factor, the source literal 0.85. -/
def dampingFactor : ℚ := mkRat 85 100

/-- The idle velocity threshold, the source literal 0.05. -/
def velocityThreshold : ℚ := mkRat 5 100

/-- The resting height colliderOffset + height / 2 = 0.4 used for the
initial position, the sink correction, navigateTo and teleport. -/
def groundHeight : ℚ := qadd colliderOffset (qmul carHeight (mkRat 1 2))

/-- The identity quaternion, the forward-facing orientation the source
builds with setFromAxisAngle((0,1,0), 0). -/
def quatIdentity : Vec4 := ⟨0, 0, 0, 1⟩

/-- The visual mesh state the controller syncs to the body. -/
structure MeshState where
  position : Vec3
  quaternion : Vec4
deriving DecidableEq, Repr

/-- The keyboard state read by Car.update. -/
structure Keys where
  forward : Bool
  backward : Bool
deriving DecidableEq, Repr

/-- The controller state: the rigid body fields (position, velocity,
angular velocity, quaternion, force accumulator, linearDamping), the
scalar currentSpeed, the navigation fields and the synced mesh. -/
structure CarState where
  position : Vec3
  velocity : Vec3
  angularVelocity : Vec3
  quaternion : Vec4
  force : Vec3
  currentSpeed : ℚ
  isNavigating : Bool
  navigationTarget : Option Vec3
  linearDamping : ℚ
  mesh : MeshState
deriving DecidableEq, Repr

/-- Shifting a requested world position by the collider offset:
the source computes targetPosition.y + colliderOffset + height / 2 in
both navigateTo and teleport. -/
def withColliderOffset (p : Vec3) : Vec3 :=
  ⟨p.x, qadd p.y groundHeight, p.z⟩

/-- CANNON Body.applyForce at the body center: accumulates into the
force that the next physics step consumes. -/
def applyForce (f : Vec3) (s : CarState) : CarState :=
  { s with force := ⟨qadd s.force.x f.x, qadd s.force.y f.y, qadd s.force.z f.z⟩ }

/-- Car.navigateTo: stores the offset target and enables
auto-navigation. -/
def navigateTo (target : Vec3) (s : CarState) : CarState :=
  { s with navigationTarget := some (withColliderOffset target), isNavigating := true }

/-- Car.teleport: overwrites the body position (with the collider
offset), zeroes linear and angular velocity and currentSpeed, resets
the orientation to the forward-facing identity quaternion, syncs the
mesh and disables navigation. -/
def teleport (target : Vec3) (s : CarState) : CarState :=
  { s with
    position := withColliderOffset target
    velocity := ⟨0, 0, 0⟩
    angularVelocity := ⟨0, 0, 0⟩
    quaternion := quatIdentity
    currentSpeed := 0
    mesh := { position := withColliderOffset target, quaternion := ⟨0, 0, 0, 1⟩ }
    isNavigating := false
    navigationTarget := none }

/-- The stabilization prefix of Car.update: sink correction, vertical
velocity lock above the 0.01 threshold, full rotation lock, currentSpeed
read from the world Z velocity, and the lateral lock that rewrites the
velocity to (0, 0, z). -/
def stabilize (s : CarState) : CarState :=
  let s1 :=
    if s.position.y < groundHeight then
      { s with position := ⟨s.position.x, groundHeight, s.position.z⟩ }
    else s
  let s2 :=
    if mkRat 1 100 < qabs s1.velocity.y then
      { s1 with velocity := ⟨s1.velocity.x, 0, s1.velocity.z⟩ }
    else s1
  let s3 := { s2 with angularVelocity := ⟨0, 0, 0⟩, quaternion := quatIdentity }
  let s4 := { s3 with currentSpeed := s3.velocity.z }
  { s4 with velocity := ⟨0, 0, s4.velocity.z⟩ }

/-- The auto-navigation branch of Car.update: stop and release control
on 3D arrival (distance below navigationArrivalDistance) or when the
remaining Z distance is within 0.5, otherwise apply the constant
navigation force toward the target along Z.  The source returns early
here, skipping keyboard input, idle damping and the mesh sync. -/
def navStep (target : Vec3) (s : CarState) : CarState :=
  if dist2 s.position target <
      qmul navigationArrivalDistance navigationArrivalDistance then
    { s with
      isNavigating := false
      navigationTarget := none
      velocity := ⟨0, 0, 0⟩
      currentSpeed := 0 }
  else
    if mkRat 1 2 < qabs (qsub target.z s.position.z) then
      applyForce
        ⟨0, 0,
          if 0 < qsub target.z s.position.z then qmul navigationSpeed carMass
          else qneg (qmul navigationSpeed carMass)⟩ s
    else
      { s with
        isNavigating := false
        navigationTarget := none
        velocity := ⟨0, 0, 0⟩
        currentSpeed := 0 }

/-- The keyboard section of Car.update: forward force with the speed
cap applied by overwriting the velocity with (0, 0, maxSpeed) when
currentSpeed exceeds it; backward braking force only while currentSpeed
is above the reverse cap; aggressive idle damping with the sub-threshold
clamp to exactly zero when no key is held; and the mesh sync. -/
def driveStep (keys : Keys) (s : CarState) : CarState :=
  let hasInput := keys.forward || keys.backward
  let s6 :=
    if keys.forward then
      let sF := applyForce ⟨0, 0, qmul acceleration carMass⟩ s
      if maxSpeed < sF.currentSpeed then { sF with velocity := ⟨0, 0, maxSpeed⟩ } else sF
    else if keys.backward then
      if qneg (qmul maxSpeed (mkRat 1 2)) < s.currentSpeed then
        applyForce ⟨0, 0, qneg (qmul brakingForce carMass)⟩ s
      else s
    else s
  let s7 :=
    if !hasInput && !s6.isNavigating then
      { s6 with
        velocity :=
          ⟨0, 0,
            if qabs (qmul s6.velocity.z dampingFactor) < velocityThreshold then 0
            else qmul s6.velocity.z dampingFactor⟩
        linearDamping := mkRat 8 10 }
    else { s6 with linearDamping := mkRat 3 10 }
  { s7 with mesh := { position := s7.position, quaternion := quatIdentity } }

/-- Car.update: stabilization, then the navigation branch when
isNavigating with a stored target (early return), otherwise the
keyboard section. -/
def carUpdate (keys : Keys) (s : CarState) : CarState :=
  let s5 := stabilize s
  if s5.isNavigating then
    match s5.navigationTarget with
    | some target => navStep target s5
    | none => driveStep keys s5
  else driveStep keys s5

/-- CANNON invMass of the car body, 1 / mass. -/
def invMass : ℚ := mkRat 1 800

/-- The fixed physics sub-step of 1/60 s. -/
def fixedDt : ℚ := mkRat 1 60

/-- The velocity after one physics sub-step: each applied-force
component changes the matching velocity component by force times
invMass times dt. -/
def physVel (s : CarState) : Vec3 :=
  ⟨qadd s.velocity.x (qmul (qmul s.force.x invMass) fixedDt),
    qadd s.velocity.y (qmul (qmul s.force.y invMass) fixedDt),
    qadd s.velocity.z (qmul (qmul s.force.z invMass) fixedDt)⟩

/-- Modelled from the spec: the Rigid-Body Physics Service
(PhysicsWorld.js is imported by the Experience orchestrator but is not
under src).  The spec describes it as an external collaborator that
advances bodies by a fixed sub-step: applied forces change velocity by
force times invMass times dt, positions advance by velocity times dt
(semi-implicit Euler, one sub-step per tick), and the accumulated force
is consumed by the step.  Gravity and the per-step linear damping decay
are omitted: the spec fixes no constants for them and no claim here
depends on them. -/
def physStep (s : CarState) : CarState :=
  { s with
    velocity := physVel s
    position := ⟨qadd s.position.x (qmul (physVel s).x fixedDt),
      qadd s.position.y (qmul (physVel s).y fixedDt),
      qadd s.position.z (qmul (physVel s).z fixedDt)⟩
    force := ⟨0, 0, 0⟩ }

/-- One full tick in the update order of the spec: physics step first,
then the vehicle controller. -/
def carTick (keys : Keys) (s : CarState) : CarState :=
  carUpdate keys (physStep s)

/-- The car state right after construction: body at the resting height
over the origin, everything else at rest. -/
def initCarState : CarState :=
  { position := ⟨0, groundHeight, 0⟩
    velocity := ⟨0, 0, 0⟩
    angularVelocity := ⟨0, 0, 0⟩
    quaternion := quatIdentity
    force := ⟨0, 0, 0⟩
    currentSpeed := 0
    isNavigating := false
    navigationTarget := none
    linearDamping := mkRat 3 10
    mesh := { position := ⟨0, 0, 0⟩, quaternion := quatIdentity } }

/-- The forward-only keyboard state. -/
def fwdKeys : Keys := ⟨true, false⟩

/-- The backward-only keyboard state. -/
def bwdKeys : Keys := ⟨false, true⟩

/-- The keyboard state with no drive key held. -/
def idleKeys : Keys := ⟨false, false⟩

/-- The closed-loop run of the system: tick n applies the physics step
and then Car.update with the keyboard state inputs n, starting from the
freshly constructed car. -/
def carTrace (inputs : ℕ → Keys) : ℕ → CarState
  | 0 => initCarState
  | n + 1 => carTick (inputs n) (carTrace inputs n)

/-- The invariant of forward-only driving from rest: not navigating,
speed within [0, maxSpeed], pending drive force within
[0, acceleration times mass]. -/
def FwdInv (s : CarState) : Prop :=
  s.isNavigating = false ∧ 0 ≤ s.velocity.z ∧ s.velocity.z ≤ maxSpeed ∧
  0 ≤ s.force.z ∧ s.force.z ≤ qmul acceleration carMass

/-- The lower-bound invariant of keyboard driving from rest: not
navigating, speed no lower than the reverse cap minus one braking step,
pending force no lower than the braking force, and a negative pending
force only present while the speed is still above the reverse cap. -/
def LowInv (s : CarState) : Prop :=
  s.isNavigating = false ∧ mkRat (-77) 6 ≤ s.velocity.z ∧
  qneg (qmul brakingForce carMass) ≤ s.force.z ∧
  (s.force.z < 0 → qneg (qmul maxSpeed (mkRat 1 2)) < s.velocity.z)

/-- The state right after navigateTo((8, 0, 100)) is called on the
freshly constructed car: this is the call TimelineUI makes for a memory
on the right side of the road, 100 units down the Z axis. -/
def navInit : CarState := navigateTo ⟨8, 0, 100⟩ initCarState

/-- The navigation run: ticks of the system with no key held after the
navigateTo call. -/
def navRun : ℕ → CarState
  | 0 => navInit
  | n + 1 => carTick idleKeys (navRun n)

/-- The navigation run state at tick 60 (checkpoint literal, verified
by navRun_60 below; splitting the 220-tick evaluation into chunks keeps
the kernel reduction depth bounded). -/
def navMid60 : CarState :=
  { position := ⟨0, mkRat 2 5, mkRat 59 8⟩
    velocity := ⟨0, 0, mkRat 59 4⟩
    angularVelocity := ⟨0, 0, 0⟩
    quaternion := quatIdentity
    force := ⟨0, 0, 12000⟩
    currentSpeed := mkRat 59 4
    isNavigating := true
    navigationTarget := some ⟨8, mkRat 2 5, 100⟩
    linearDamping := mkRat 3 10
    mesh := { position := ⟨0, 0, 0⟩, quaternion := quatIdentity } }

/-- The navigation run state at tick 120 (checkpoint literal). -/
def navMid120 : CarState :=
  { position := ⟨0, mkRat 2 5, mkRat 119 4⟩
    velocity := ⟨0, 0, mkRat 119 4⟩
    angularVelocity := ⟨0, 0, 0⟩
    quaternion := quatIdentity
    force := ⟨0, 0, 12000⟩
    currentSpeed := mkRat 119 4
    isNavigating := true
    navigationTarget := some ⟨8, mkRat 2 5, 100⟩
    linearDamping := mkRat 3 10
    mesh := { position := ⟨0, 0, 0⟩, quaternion := quatIdentity } }

/-- The navigation run state at tick 180 (checkpoint literal). -/
def navMid180 : CarState :=
  { position := ⟨0, mkRat 2 5, mkRat 537 8⟩
    velocity := ⟨0, 0, mkRat 179 4⟩
    angularVelocity := ⟨0, 0, 0⟩
    quaternion := quatIdentity
    force := ⟨0, 0, 12000⟩
    currentSpeed := mkRat 179 4
    isNavigating := true
    navigationTarget := some ⟨8, mkRat 2 5, 100⟩
    linearDamping := mkRat 3 10
    mesh := { position := ⟨0, 0, 0⟩, quaternion := quatIdentity } }

/-- The navigation run state at tick 220: navigation has terminated
through the close-enough-on-Z branch with z = 803/8 = 100.375. -/
def navEnd220 : CarState :=
  { position := ⟨0, mkRat 2 5, mkRat 803 8⟩
    velocity := ⟨0, 0, 0⟩
    angularVelocity := ⟨0, 0, 0⟩
    quaternion := quatIdentity
    force := ⟨0, 0, 0⟩
    currentSpeed := 0
    isNavigating := false
    navigationTarget := none
    linearDamping := mkRat 3 10
    mesh := { position := ⟨0, 0, 0⟩, quaternion := quatIdentity } }

theorem qadd_eq (a b : ℚ) : qadd a b = a + b := by
  have ha : (a.den : ℚ) ≠ 0 := by exact_mod_cast a.den_nz
  have hb : (b.den : ℚ) ≠ 0 := by exact_mod_cast b.den_nz
  conv_rhs => rw [← Rat.num_div_den a, ← Rat.num_div_den b]
  rw [qadd, Rat.mkRat_eq_div, div_add_div _ _ ha hb]
  push_cast
  ring_nf

theorem qmul_eq (a b : ℚ) : qmul a b = a * b := by
  conv_rhs => rw [← Rat.num_div_den a, ← Rat.num_div_den b]
  rw [qmul, Rat.mkRat_eq_div, div_mul_div_comm]
  push_cast
  ring_nf

theorem qneg_eq (a : ℚ) : qneg a = -a := by
  conv_rhs => rw [← Rat.num_div_den a]
  rw [qneg, Rat.mkRat_eq_div, ← neg_div]
  push_cast
  ring_nf

theorem qsub_eq (a b : ℚ) : qsub a b = a - b := by
  rw [qsub, qadd_eq, qneg_eq, sub_eq_add_neg]

theorem qmin_eq (a b : ℚ) : qmin a b = min a b := by rw [qmin, min_def]

theorem qmax_eq (a b : ℚ) : qmax a b = max a b := by rw [qmax, max_def]

theorem qabs_eq (a : ℚ) : qabs a = |a| := by
  rcases lt_or_le a 0 with h | h
  · rw [qabs, if_pos h, qneg_eq, abs_of_neg h]
  · rw [qabs, if_neg (not_lt.mpr h), abs_of_nonneg h]

theorem dist2_eq (a b : Vec3) :
    dist2 a b = (a.x - b.x) * (a.x - b.x) + (a.y - b.y) * (a.y - b.y) +
      (a.z - b.z) * (a.z - b.z) := by
  rw [dist2, qadd_eq, qadd_eq, qmul_eq, qmul_eq, qmul_eq, qsub_eq, qsub_eq, qsub_eq]

theorem dist2_nonneg (a b : Vec3) : 0 ≤ dist2 a b := by
  rw [dist2_eq]
  have h1 := mul_self_nonneg (a.x - b.x)
  have h2 := mul_self_nonneg (a.y - b.y)
  have h3 := mul_self_nonneg (a.z - b.z)
  linarith

/-- C9 counterexample: after activating and clearing once, no memory is
active, yet a second clearActiveMemory call still changes the state: it
overwrites previousMemoryId (which held memory-1) with null.  So
clearActive when nothing is active is not a no-op on the entire
activation state. -/
theorem clearActive_inactive_not_noop :
    (clearActiveMemory (setActiveMemory "memory-1" initMMState)).activeMemoryId = none ∧
    clearActiveMemory (clearActiveMemory (setActiveMemory "memory-1" initMMState)) ≠
      clearActiveMemory (setActiveMemory "memory-1" initMMState) := by
  decide

/-- C9 amended: when no memory is active, clearActiveMemory leaves
activeMemoryId and activeMemory unchanged (both stay null) but resets
previousMemoryId to null; it is a full no-op exactly when
previousMemoryId is already null. -/
theorem clearActive_inactive_only_touches_previous (s : MMState)
    (hid : s.activeMemoryId = none) (hmem : s.activeMemory = none) :
    clearActiveMemory s = { s with previousMemoryId := none } ∧
    (clearActiveMemory s = s ↔ s.previousMemoryId = none) := by
  cases s
  simp_all [clearActiveMemory]
  constructor
  · intro h
    exact h.symm
  · intro h
    exact h.symm

/-- Witness for the amended C9 theorem at the freshly constructed
MemoryManager state, where it is a genuine no-op. -/
theorem clearActive_inactive_only_touches_previous_witness :
    clearActiveMemory initMMState = { initMMState with previousMemoryId := none } ∧
    (clearActiveMemory initMMState = initMMState ↔ initMMState.previousMemoryId = none) :=
  clearActive_inactive_only_touches_previous initMMState rfl rfl

/-- C1 counterexample: with the vehicle at z = 20 landmark A (index 0)
is active, but after moving to z = 35, where the distance to both
landmarks is exactly 15, the active landmark becomes none rather than
staying A: the source requires distance strictly less than the radius,
so a distance equal to the radius deactivates everything and the
registry-order tie-break never applies. -/
theorem proximity_tie_at_radius_clears :
    (c1Tick ⟨0, 0, 20⟩ c1State0).current = some 0 ∧
    (c1Tick ⟨0, 0, 35⟩ (c1Tick ⟨0, 0, 20⟩ c1State0)).current = none ∧
    (c1Tick ⟨0, 0, 35⟩ (c1Tick ⟨0, 0, 20⟩ c1State0)).current ≠ some 0 := by
  decide

/-- C1 amended: the full scenario against the code: at z = 20 the active
landmark is A; at z = 35, distance exactly 15 to both, no landmark is
active (15 is not strictly less than the radius 15, so the tie-break by
registry order is never consulted); at z = 50 the active landmark is B;
at z = 1000 no landmark is active. -/
theorem proximity_scenario :
    (c1Tick ⟨0, 0, 20⟩ c1State0).current = some 0 ∧
    (c1Tick ⟨0, 0, 35⟩ (c1Tick ⟨0, 0, 20⟩ c1State0)).current = none ∧
    (c1Tick ⟨0, 0, 50⟩ (c1Tick ⟨0, 0, 35⟩ (c1Tick ⟨0, 0, 20⟩ c1State0))).current = some 1 ∧
    (c1Tick ⟨0, 0, 1000⟩ (c1Tick ⟨0, 0, 50⟩ (c1Tick ⟨0, 0, 35⟩
      (c1Tick ⟨0, 0, 20⟩ c1State0)))).current = none := by
  decide

theorem updateIntensities_getElem (cur : Option ℕ) (k j : ℕ) (l : List ℚ) :
    (updateIntensities cur k l)[j]? =
      (l[j]?).map (fun v =>
        if cur = some (k + j) then qmin 1 (qadd v highlightSpeed)
        else qmax 0 (qsub v highlightSpeed)) := by
  induction l generalizing k j with
  | nil => rfl
  | cons v rest ih =>
    cases j with
    | zero =>
      simp only [updateIntensities, List.getElem?_cons_zero, Option.map_some', Nat.add_zero]
    | succ j =>
      have harith : (k + 1) + j = k + (j + 1) := by omega
      have hstep := ih (k + 1) j
      simp only [harith] at hstep
      simp only [updateIntensities, List.getElem?_cons_succ]
      exact hstep

theorem updateIntensities_bounds (cur : Option ℕ) (k : ℕ) (l : List ℚ)
    (h : ∀ q ∈ l, 0 ≤ q ∧ q ≤ 1) :
    ∀ q ∈ updateIntensities cur k l, 0 ≤ q ∧ q ≤ 1 := by
  have hs0 : (0 : ℚ) ≤ highlightSpeed := by decide
  induction l generalizing k with
  | nil => simp [updateIntensities]
  | cons v rest ih =>
    intro q hq
    have hv := h v (by simp)
    simp only [updateIntensities, List.mem_cons] at hq
    rcases hq with rfl | hq
    · by_cases hc : cur = some k
      · rw [if_pos hc, qmin_eq, qadd_eq]
        exact ⟨le_min (by norm_num) (by linarith [hv.1]), min_le_left _ _⟩
      · rw [if_neg hc, qmax_eq, qsub_eq]
        exact ⟨le_max_left _ _, max_le (by norm_num) (by linarith [hv.2])⟩
    · exact ih (k + 1) (fun r hr => h r (List.mem_cons_of_mem _ hr)) q hq

theorem setPrev_bounds (prev : Option ℕ) (l : List ℚ)
    (h : ∀ q ∈ l, 0 ≤ q ∧ q ≤ 1) :
    ∀ q ∈ setPrev prev l, 0 ≤ q ∧ q ≤ 1 := by
  cases prev with
  | none => exact h
  | some p =>
    intro q hq
    rcases List.mem_or_eq_of_mem_set hq with hq2 | rfl
    · exact h q hq2
    · exact ⟨le_refl 0, by norm_num⟩

/-- The intensity easing applied after the selection phase: values stay
in [0,1], non-selected indices never increase, and an index whose value
strictly increased must be the selected one. -/
theorem intensity_step_core (cur prev : Option ℕ) (l : List ℚ)
    (h : ∀ q ∈ l, 0 ≤ q ∧ q ≤ 1) :
    (∀ q ∈ updateIntensities cur 0 (setPrev prev l), 0 ≤ q ∧ q ≤ 1) ∧
    (∀ j a b, cur ≠ some j → l[j]? = some a →
      (updateIntensities cur 0 (setPrev prev l))[j]? = some b → b ≤ a) ∧
    (∀ j a b, l[j]? = some a →
      (updateIntensities cur 0 (setPrev prev l))[j]? = some b → a < b → cur = some j) := by
  have hs0 : (0 : ℚ) ≤ highlightSpeed := by decide
  have key : ∀ j a b, cur ≠ some j → l[j]? = some a →
      (updateIntensities cur 0 (setPrev prev l))[j]? = some b → b ≤ a := by
    intro j a b hne ha hb
    have ha0 : 0 ≤ a := (h a (List.getElem?_mem ha)).1
    rw [updateIntensities_getElem] at hb
    obtain ⟨a1, ha1, hfb⟩ := Option.map_eq_some'.mp hb
    rw [Nat.zero_add, if_neg hne, qmax_eq, qsub_eq] at hfb
    have ha1v : a1 = a ∨ a1 = 0 := by
      cases prev with
      | none =>
        rw [setPrev] at ha1
        rw [ha] at ha1
        exact Or.inl (Option.some_inj.mp ha1).symm
      | some p =>
        rw [setPrev, List.getElem?_set] at ha1
        by_cases hpj : p = j
        · rw [if_pos hpj] at ha1
          by_cases hpl : p < l.length
          · rw [if_pos hpl] at ha1
            exact Or.inr (Option.some_inj.mp ha1).symm
          · rw [if_neg hpl] at ha1
            exact absurd ha1 (by simp)
        · rw [if_neg hpj] at ha1
          rw [ha] at ha1
          exact Or.inl (Option.some_inj.mp ha1).symm
    rcases ha1v with rfl | rfl
    · rw [← hfb]
      exact max_le ha0 (by linarith)
    · rw [← hfb]
      exact max_le ha0 (by linarith)
  refine ⟨?_, key, ?_⟩
  · exact updateIntensities_bounds cur 0 _ (setPrev_bounds prev l h)
  · intro j a b ha hb hab
    by_cases hc : cur = some j
    · exact hc
    · exact absurd (key j a b hc ha hb) (by linarith)

theorem worldSelectPhase_shape (sel : Option ℕ) (lms : List WLandmark) (s : WorldState) :
    ∃ prev, (worldSelectPhase sel lms s).intensities = setPrev prev s.intensities := by
  unfold worldSelectPhase
  by_cases h1 : sel ≠ s.current
  · exact ⟨s.current, by rw [if_pos h1]⟩
  · by_cases h2 : sel = none ∧ s.current ≠ none
    · exact ⟨s.current, by rw [if_neg h1, if_pos h2]⟩
    · exact ⟨none, by rw [if_neg h1, if_neg h2]; rfl⟩

/-- C3: on every engine tick with the car initialized, all highlight
intensities stay in [0,1]; every landmark other than the resulting
current one has a non-increasing intensity; and any landmark whose
intensity strictly increased to a nonzero value is the single current
one, so at most one landmark has a nonzero increasing intensity. -/
theorem highlight_intensity_invariants (carPos : Vec3) (lms : List WLandmark)
    (s : WorldState) (h : ∀ q ∈ s.intensities, 0 ≤ q ∧ q ≤ 1) :
    (∀ q ∈ (worldUpdate (some carPos) lms s).intensities, 0 ≤ q ∧ q ≤ 1) ∧
    (∀ j a b, (worldUpdate (some carPos) lms s).current ≠ some j →
      s.intensities[j]? = some a →
      (worldUpdate (some carPos) lms s).intensities[j]? = some b → b ≤ a) ∧
    (∀ j a b, s.intensities[j]? = some a →
      (worldUpdate (some carPos) lms s).intensities[j]? = some b →
      a < b → b ≠ 0 → (worldUpdate (some carPos) lms s).current = some j) := by
  obtain ⟨prev, hprev⟩ := worldSelectPhase_shape
    ((selectClosest carPos 0 none (lms.map (fun lm => lm.position))).map Prod.fst) lms s
  obtain ⟨hbnd, hdec, hinc⟩ := intensity_step_core
    (worldSelectPhase ((selectClosest carPos 0 none
      (lms.map (fun lm => lm.position))).map Prod.fst) lms s).current prev
    s.intensities h
  have hcur : (worldUpdate (some carPos) lms s).current =
      (worldSelectPhase ((selectClosest carPos 0 none
        (lms.map (fun lm => lm.position))).map Prod.fst) lms s).current := rfl
  have hint : (worldUpdate (some carPos) lms s).intensities =
      updateIntensities
        (worldSelectPhase ((selectClosest carPos 0 none
          (lms.map (fun lm => lm.position))).map Prod.fst) lms s).current 0
        (setPrev prev s.intensities) := by
    rw [← hprev]
    rfl
  rw [hcur, hint]
  exact ⟨hbnd, fun j a b hne => hdec j a b hne,
    fun j a b ha hb hab _ => hinc j a b ha hb hab⟩

/-- Witness for the C3 invariants at a concrete engine tick: the C1
scenario state with the car at z = 20. -/
theorem highlight_intensity_invariants_witness :
    (∀ q ∈ c1State0.intensities, 0 ≤ q ∧ q ≤ 1) ∧
    ((∀ q ∈ (worldUpdate (some ⟨0, 0, 20⟩) c1Landmarks c1State0).intensities,
        0 ≤ q ∧ q ≤ 1) ∧
    (∀ j a b, (worldUpdate (some ⟨0, 0, 20⟩) c1Landmarks c1State0).current ≠ some j →
      c1State0.intensities[j]? = some a →
      (worldUpdate (some ⟨0, 0, 20⟩) c1Landmarks c1State0).intensities[j]? = some b →
      b ≤ a) ∧
    (∀ j a b, c1State0.intensities[j]? = some a →
      (worldUpdate (some ⟨0, 0, 20⟩) c1Landmarks c1State0).intensities[j]? = some b →
      a < b → b ≠ 0 →
      (worldUpdate (some ⟨0, 0, 20⟩) c1Landmarks c1State0).current = some j)) :=
  ⟨by decide, highlight_intensity_invariants ⟨0, 0, 20⟩ c1Landmarks c1State0 (by decide)⟩

theorem dist2_self (a : Vec3) : dist2 a a = 0 := by
  rw [dist2_eq]
  ring

theorem dist2_lerp_rig (a b : Vec3) :
    dist2 (lerpVec a b rigSmoothness) b = mkRat 81 100 * dist2 a b := by
  have h1 : (rigSmoothness : ℚ) = 1 / 10 := by
    rw [rigSmoothness, Rat.mkRat_eq_div]
    norm_num
  have h2 : (mkRat 81 100 : ℚ) = 81 / 100 := by
    rw [Rat.mkRat_eq_div]
    norm_num
  simp only [dist2_eq, lerpVec, qadd_eq, qmul_eq, qsub_eq, h1, h2]
  ring

/-- C8: on a rig tick with the car initialized, the rig snaps exactly to
the freshly computed target when its distance to it exceeds the
teleport-detection threshold 20, interpolates toward it at the fixed
rate otherwise, and in both cases ends within the snap threshold of the
target; with the car position taken right after a teleport this is the
one-tick no-lag guarantee. -/
theorem camera_snap_or_lerp (carPos offset : Vec3) (cs : CamState) :
    (qmul snapThreshold snapThreshold <
        dist2 cs.currentRigPosition (camTargetPos carPos offset) →
      (camUpdate (some carPos) offset cs).currentRigPosition =
        camTargetPos carPos offset) ∧
    (dist2 cs.currentRigPosition (camTargetPos carPos offset) ≤
        qmul snapThreshold snapThreshold →
      (camUpdate (some carPos) offset cs).currentRigPosition =
        lerpVec cs.currentRigPosition (camTargetPos carPos offset) rigSmoothness) ∧
    dist2 (camUpdate (some carPos) offset cs).currentRigPosition
        (camTargetPos carPos offset) ≤ qmul snapThreshold snapThreshold := by
  have hsnap : (qmul snapThreshold snapThreshold : ℚ) = 400 := by
    rw [qmul_eq, snapThreshold]
    norm_num
  by_cases h : qmul snapThreshold snapThreshold <
      dist2 cs.currentRigPosition (camTargetPos carPos offset)
  · have hres : (camUpdate (some carPos) offset cs).currentRigPosition =
        camTargetPos carPos offset := by
      simp only [camUpdate]
      rw [if_pos h]
    refine ⟨fun _ => hres, fun hle => absurd h (not_lt.mpr hle), ?_⟩
    rw [hres, dist2_self, hsnap]
    norm_num
  · have hres : (camUpdate (some carPos) offset cs).currentRigPosition =
        lerpVec cs.currentRigPosition (camTargetPos carPos offset) rigSmoothness := by
      simp only [camUpdate]
      rw [if_neg h]
    refine ⟨fun hlt => absurd hlt h, fun _ => hres, ?_⟩
    rw [hres, dist2_lerp_rig]
    have h81 : (mkRat 81 100 : ℚ) = 81 / 100 := by
      rw [Rat.mkRat_eq_div]
      norm_num
    have hd0 := dist2_nonneg cs.currentRigPosition (camTargetPos carPos offset)
    have hub := not_lt.mp h
    rw [h81]
    linarith

/-- Witness for C8 at a concrete snap: the rig at distance 105 from the
target snaps to it in one tick. -/
theorem camera_snap_or_lerp_witness :
    qmul snapThreshold snapThreshold <
      dist2 (⟨0, 5, -100⟩ : Vec3) (camTargetPos ⟨0, 0, 0⟩ ⟨0, 0, 0⟩) ∧
    (camUpdate (some ⟨0, 0, 0⟩) ⟨0, 0, 0⟩ ⟨⟨0, 5, -100⟩, ⟨0, 5, -100⟩⟩).currentRigPosition =
      camTargetPos ⟨0, 0, 0⟩ ⟨0, 0, 0⟩ :=
  ⟨by decide, (camera_snap_or_lerp ⟨0, 0, 0⟩ ⟨0, 0, 0⟩ ⟨⟨0, 5, -100⟩, ⟨0, 5, -100⟩⟩).1
    (by decide)⟩

/-- C10: while the car (and its rigid body) is not initialized, one tick
of the activation engine and one tick of the camera rig leave their
entire state unchanged; both updates are total functions, so no error
is raised. -/
theorem uninitialized_car_updates_noop :
    (∀ (lms : List WLandmark) (s : WorldState), worldUpdate none lms s = s) ∧
    (∀ (offset : Vec3) (cs : CamState), camUpdate none offset cs = cs) :=
  ⟨fun _ _ => rfl, fun _ _ => rfl⟩

theorem stabilize_velocity_y (s : CarState) : (stabilize s).velocity.y = 0 := rfl

theorem stabilize_velocity_x (s : CarState) : (stabilize s).velocity.x = 0 := rfl

theorem navStep_velocity_y (target : Vec3) (s : CarState) (h : s.velocity.y = 0) :
    (navStep target s).velocity.y = 0 := by
  unfold navStep
  repeat' split
  all_goals first
  | rfl
  | exact h

theorem driveStep_velocity_y (keys : Keys) (s : CarState) (h : s.velocity.y = 0) :
    (driveStep keys s).velocity.y = 0 := by
  unfold driveStep applyForce
  dsimp only
  repeat' split
  all_goals first
  | rfl
  | exact h

/-- C5: immediately after Car.update runs, the vertical velocity
component of the body is exactly zero, on every control path: the
lateral lock rewrites the velocity to (0, 0, z) before the navigation
and keyboard sections, and every later velocity write keeps y at 0. -/
theorem vertical_velocity_zero_after_update (keys : Keys) (s : CarState) :
    (carUpdate keys s).velocity.y = 0 := by
  unfold carUpdate
  have h5 := stabilize_velocity_y s
  dsimp only
  split
  · cases htgt : (stabilize s).navigationTarget with
    | none => exact driveStep_velocity_y keys (stabilize s) h5
    | some target => exact navStep_velocity_y target (stabilize s) h5
  · exact driveStep_velocity_y keys (stabilize s) h5

/-- C7: teleport overwrites the position with the requested point plus
the collider-height offset, zeroes linear and angular velocity and the
scalar speed, resets the orientation to the forward-facing identity,
exits navigation and clears the target, leaves the damping
configuration untouched (no damping logic runs), and is idempotent. -/
theorem teleport_spec (p : Vec3) (s : CarState) :
    (teleport p s).position = withColliderOffset p ∧
    (teleport p s).velocity = ⟨0, 0, 0⟩ ∧
    (teleport p s).angularVelocity = ⟨0, 0, 0⟩ ∧
    (teleport p s).currentSpeed = 0 ∧
    (teleport p s).quaternion = quatIdentity ∧
    (teleport p s).isNavigating = false ∧
    (teleport p s).navigationTarget = none ∧
    (teleport p s).mesh = ⟨withColliderOffset p, quatIdentity⟩ ∧
    (teleport p s).linearDamping = s.linearDamping ∧
    teleport p (teleport p s) = teleport p s :=
  ⟨rfl, rfl, rfl, rfl, rfl, rfl, rfl, rfl, rfl, rfl⟩

/- Projection lemmas for the controller stages, used by the dynamic
   claims. -/

theorem stabilize_fields (s : CarState) :
    (stabilize s).currentSpeed = s.velocity.z ∧
    (stabilize s).velocity = ⟨0, 0, s.velocity.z⟩ ∧
    (stabilize s).force = s.force ∧
    (stabilize s).isNavigating = s.isNavigating ∧
    (stabilize s).navigationTarget = s.navigationTarget ∧
    (stabilize s).position.x = s.position.x ∧
    (stabilize s).position.z = s.position.z := by
  refine ⟨?_, ?_, ?_, ?_, ?_, ?_, ?_⟩ <;>
    (unfold stabilize; dsimp only; repeat' split) <;> rfl

theorem carUpdate_eq_drive (k : Keys) (s : CarState) (hnav : s.isNavigating = false) :
    carUpdate k s = driveStep k (stabilize s) := by
  have h5 : (stabilize s).isNavigating = false := (stabilize_fields s).2.2.2.1.trans hnav
  unfold carUpdate
  dsimp only
  rw [h5]
  simp

theorem carUpdate_eq_nav (k : Keys) (s : CarState) (t : Vec3)
    (hnav : s.isNavigating = true) (ht : s.navigationTarget = some t) :
    carUpdate k s = navStep t (stabilize s) := by
  have h5 : (stabilize s).isNavigating = true := (stabilize_fields s).2.2.2.1.trans hnav
  have h5t : (stabilize s).navigationTarget = some t :=
    (stabilize_fields s).2.2.2.2.1.trans ht
  unfold carUpdate
  dsimp only
  rw [h5, h5t]
  simp

theorem physStep_velocity (s : CarState) : (physStep s).velocity = physVel s := rfl

theorem physStep_force (s : CarState) : (physStep s).force = ⟨0, 0, 0⟩ := rfl

theorem physStep_isNavigating (s : CarState) :
    (physStep s).isNavigating = s.isNavigating := by
  simp only [physStep]

theorem physStep_navigationTarget (s : CarState) :
    (physStep s).navigationTarget = s.navigationTarget := by
  simp only [physStep]

theorem physStep_position_x (s : CarState) :
    (physStep s).position.x = qadd s.position.x (qmul (physVel s).x fixedDt) := by
  simp only [physStep]

theorem physVel_x (s : CarState) :
    (physVel s).x = qadd s.velocity.x (qmul (qmul s.force.x invMass) fixedDt) := rfl

theorem physVel_z (s : CarState) :
    (physVel s).z = qadd s.velocity.z (qmul (qmul s.force.z invMass) fixedDt) := rfl

theorem driveStep_isNavigating (k : Keys) (s : CarState) :
    (driveStep k s).isNavigating = s.isNavigating := by
  unfold driveStep applyForce
  dsimp only
  repeat' split
  all_goals rfl

theorem driveStep_navigationTarget (k : Keys) (s : CarState) :
    (driveStep k s).navigationTarget = s.navigationTarget := by
  unfold driveStep applyForce
  dsimp only
  repeat' split
  all_goals rfl

theorem driveStep_position (k : Keys) (s : CarState) :
    (driveStep k s).position = s.position := by
  unfold driveStep applyForce
  dsimp only
  repeat' split
  all_goals rfl

theorem driveStep_velocity_x (k : Keys) (s : CarState) (h : s.velocity.x = 0) :
    (driveStep k s).velocity.x = 0 := by
  unfold driveStep applyForce
  dsimp only
  repeat' split
  all_goals first
  | rfl
  | exact h

theorem driveStep_force_x (k : Keys) (s : CarState) :
    (driveStep k s).force.x = s.force.x := by
  unfold driveStep applyForce
  dsimp only
  repeat' split
  all_goals first
  | rfl
  | (show qadd s.force.x 0 = s.force.x; rw [qadd_eq, add_zero])

theorem driveStep_fwd (k : Keys) (s : CarState) (hf : k.forward = true) :
    (driveStep k s).velocity.z =
      (if maxSpeed < s.currentSpeed then maxSpeed else s.velocity.z) ∧
    (driveStep k s).force.z = qadd s.force.z (qmul acceleration carMass) := by
  unfold driveStep applyForce
  simp only [hf, Bool.true_or, Bool.not_true, Bool.false_and, Bool.false_eq_true,
    if_true, if_false]
  constructor
  · split
    · rfl
    · rfl
  · split
    · rfl
    · rfl

theorem driveStep_bwd (k : Keys) (s : CarState) (hf : k.forward = false)
    (hb : k.backward = true) :
    (driveStep k s).velocity.z = s.velocity.z ∧
    (driveStep k s).force.z =
      (if qneg (qmul maxSpeed (mkRat 1 2)) < s.currentSpeed then
        qadd s.force.z (qneg (qmul brakingForce carMass))
      else s.force.z) := by
  unfold driveStep applyForce
  simp only [hf, hb, Bool.false_or, Bool.true_or, Bool.not_true, Bool.false_and,
    Bool.false_eq_true, if_true, if_false]
  constructor
  · split
    · rfl
    · rfl
  · split
    · rfl
    · rfl

theorem driveStep_idle (k : Keys) (s : CarState) (hf : k.forward = false)
    (hb : k.backward = false) (hnav : s.isNavigating = false) :
    (driveStep k s).velocity.z =
      (if qabs (qmul s.velocity.z dampingFactor) < velocityThreshold then 0
       else qmul s.velocity.z dampingFactor) ∧
    (driveStep k s).force.z = s.force.z := by
  unfold driveStep applyForce
  simp only [hf, hb, hnav, Bool.false_or, Bool.not_false, Bool.true_and,
    Bool.false_eq_true, if_true, if_false]
  constructor
  · first
    | rfl
    | trivial
  · first
    | rfl
    | trivial

theorem carTick_eq_drive (k : Keys) (s : CarState) (hnav : s.isNavigating = false) :
    carTick k s = driveStep k (stabilize (physStep s)) :=
  carUpdate_eq_drive k _ ((physStep_isNavigating s).trans hnav)

theorem carTick_isNavigating (k : Keys) (s : CarState) (hnav : s.isNavigating = false) :
    (carTick k s).isNavigating = false := by
  rw [carTick_eq_drive k s hnav, driveStep_isNavigating]
  exact (stabilize_fields (physStep s)).2.2.2.1.trans ((physStep_isNavigating s).trans hnav)

theorem stabilize_physStep_cs (s : CarState) :
    (stabilize (physStep s)).currentSpeed = (physVel s).z := by
  have h1 := (stabilize_fields (physStep s)).1
  rw [physStep_velocity] at h1
  exact h1

theorem stabilize_physStep_vz (s : CarState) :
    (stabilize (physStep s)).velocity.z = (physVel s).z := by
  have h1 := (stabilize_fields (physStep s)).2.1
  rw [physStep_velocity] at h1
  rw [h1]

theorem stabilize_physStep_forcez (s : CarState) :
    (stabilize (physStep s)).force.z = 0 := by
  have h1 := (stabilize_fields (physStep s)).2.2.1
  rw [physStep_force] at h1
  rw [h1]

theorem carTick_fwd (k : Keys) (s : CarState) (hf : k.forward = true)
    (hnav : s.isNavigating = false) :
    (carTick k s).velocity.z =
      (if maxSpeed < (physVel s).z then maxSpeed else (physVel s).z) ∧
    (carTick k s).force.z = qmul acceleration carMass := by
  rw [carTick_eq_drive k s hnav]
  obtain ⟨hv, hfz⟩ := driveStep_fwd k (stabilize (physStep s)) hf
  refine ⟨?_, ?_⟩
  · rw [hv, stabilize_physStep_cs, stabilize_physStep_vz]
  · rw [hfz, stabilize_physStep_forcez, qadd_eq, zero_add]

theorem carTick_bwd (k : Keys) (s : CarState) (hf : k.forward = false)
    (hb : k.backward = true) (hnav : s.isNavigating = false) :
    (carTick k s).velocity.z = (physVel s).z ∧
    (carTick k s).force.z =
      (if qneg (qmul maxSpeed (mkRat 1 2)) < (physVel s).z then
        qneg (qmul brakingForce carMass)
      else 0) := by
  rw [carTick_eq_drive k s hnav]
  obtain ⟨hv, hfz⟩ := driveStep_bwd k (stabilize (physStep s)) hf hb
  refine ⟨hv.trans (stabilize_physStep_vz s), ?_⟩
  rw [hfz, stabilize_physStep_cs]
  by_cases hc : qneg (qmul maxSpeed (mkRat 1 2)) < (physVel s).z
  · rw [if_pos hc, if_pos hc, stabilize_physStep_forcez, qadd_eq, zero_add]
  · rw [if_neg hc, if_neg hc, stabilize_physStep_forcez]

theorem carTick_idle (k : Keys) (s : CarState) (hf : k.forward = false)
    (hb : k.backward = false) (hnav : s.isNavigating = false) :
    (carTick k s).velocity.z =
      (if qabs (qmul (physVel s).z dampingFactor) < velocityThreshold then 0
       else qmul (physVel s).z dampingFactor) ∧
    (carTick k s).force.z = 0 := by
  rw [carTick_eq_drive k s hnav]
  have hnav5 : (stabilize (physStep s)).isNavigating = false :=
    (stabilize_fields (physStep s)).2.2.2.1.trans ((physStep_isNavigating s).trans hnav)
  obtain ⟨hv, hfz⟩ := driveStep_idle k (stabilize (physStep s)) hf hb hnav5
  refine ⟨?_, hfz.trans (stabilize_physStep_forcez s)⟩
  rw [hv, stabilize_physStep_vz]

theorem invMass_val : (invMass : ℚ) = 1 / 800 := by
  rw [invMass, Rat.mkRat_eq_div]
  norm_num

theorem fixedDt_val : (fixedDt : ℚ) = 1 / 60 := by
  rw [fixedDt, Rat.mkRat_eq_div]
  norm_num

theorem dampingFactor_val : (dampingFactor : ℚ) = 85 / 100 := by
  rw [dampingFactor, Rat.mkRat_eq_div]
  norm_num

theorem velocityThreshold_val : (velocityThreshold : ℚ) = 5 / 100 := by
  rw [velocityThreshold, Rat.mkRat_eq_div]
  norm_num

theorem physVel_z_eq (s : CarState) :
    (physVel s).z = s.velocity.z + s.force.z * (1 / 800) * (1 / 60) := by
  rw [physVel_z, qadd_eq, qmul_eq, qmul_eq, invMass_val, fixedDt_val]

theorem accForce_val : (qmul acceleration carMass : ℚ) = 20000 := by
  rw [qmul_eq, acceleration, carMass]
  norm_num

theorem brakeForce_val : (qneg (qmul brakingForce carMass) : ℚ) = -16000 := by
  rw [qneg_eq, qmul_eq, brakingForce, carMass]
  norm_num

theorem reverseCap_val : (qneg (qmul maxSpeed (mkRat 1 2)) : ℚ) = -(25 / 2) := by
  rw [qneg_eq, qmul_eq, maxSpeed, Rat.mkRat_eq_div]
  norm_num

theorem fwd_inv_step (s : CarState) (h : FwdInv s) :
    FwdInv (carTick fwdKeys s) ∧ s.velocity.z ≤ (carTick fwdKeys s).velocity.z := by
  obtain ⟨hnav, hv0, hvM, hf0, hfM⟩ := h
  obtain ⟨hvz, hfz⟩ := carTick_fwd fwdKeys s rfl hnav
  have hnav2 := carTick_isNavigating fwdKeys s hnav
  have hpv := physVel_z_eq s
  rw [accForce_val] at hfM
  have hM : (maxSpeed : ℚ) = 25 := rfl
  rw [hM] at hvM
  have hpv_lb : s.velocity.z ≤ (physVel s).z := by
    rw [hpv]
    linarith [hf0]
  refine ⟨⟨hnav2, ?_, ?_, ?_, ?_⟩, ?_⟩
  · rw [hvz]
    by_cases hc : maxSpeed < (physVel s).z
    · rw [if_pos hc, hM]
      norm_num
    · rw [if_neg hc]
      exact le_trans hv0 hpv_lb
  · rw [hvz]
    by_cases hc : maxSpeed < (physVel s).z
    · rw [if_pos hc]
    · rw [if_neg hc]
      exact not_lt.mp hc
  · rw [hfz, accForce_val]
    norm_num
  · rw [hfz]
  · rw [hvz]
    by_cases hc : maxSpeed < (physVel s).z
    · rw [if_pos hc, hM]
      linarith
    · rw [if_neg hc]
      exact hpv_lb

theorem fwd_inv_all (n : ℕ) : FwdInv (carTrace (fun _ => fwdKeys) n) := by
  induction n with
  | zero =>
    refine ⟨rfl, le_refl 0, ?_, le_refl 0, ?_⟩
    · decide
    · decide
  | succ n ih => exact (fwd_inv_step _ ih).1

theorem low_inv_step (k : Keys) (s : CarState) (h : LowInv s) : LowInv (carTick k s) := by
  obtain ⟨hnav, hv, hfb, hfneg⟩ := h
  have hnav2 := carTick_isNavigating k s hnav
  have hpv := physVel_z_eq s
  rw [brakeForce_val] at hfb
  have h77 : (mkRat (-77) 6 : ℚ) = -(77 / 6) := by
    rw [Rat.mkRat_eq_div]
    norm_num
  rw [h77] at hv
  have hcap : (qneg (qmul maxSpeed (mkRat 1 2)) : ℚ) = -(25 / 2) := reverseCap_val
  have hpv_lb : -(77 / 6) ≤ (physVel s).z := by
    by_cases hfs : s.force.z < 0
    · have hcapv := hfneg hfs
      rw [hcap] at hcapv
      rw [hpv]
      linarith [hfb]
    · push_neg at hfs
      rw [hpv]
      linarith [hfs]
  rcases k with ⟨kf, kb⟩
  cases kf
  · cases kb
    · obtain ⟨hvz, hfz⟩ := carTick_idle ⟨false, false⟩ s rfl rfl hnav
      refine ⟨hnav2, ?_, ?_, ?_⟩
      · rw [hvz, h77]
        by_cases hc : qabs (qmul (physVel s).z dampingFactor) < velocityThreshold
        · rw [if_pos hc]
          norm_num
        · rw [if_neg hc, qmul_eq, dampingFactor_val]
          linarith [hpv_lb]
      · rw [hfz, brakeForce_val]
        norm_num
      · rw [hfz]
        intro hcontra
        exact absurd hcontra (by norm_num)
    · obtain ⟨hvz, hfz⟩ := carTick_bwd ⟨false, true⟩ s rfl rfl hnav
      refine ⟨hnav2, ?_, ?_, ?_⟩
      · rw [hvz, h77]
        exact hpv_lb
      · rw [hfz]
        by_cases hc : qneg (qmul maxSpeed (mkRat 1 2)) < (physVel s).z
        · rw [if_pos hc]
        · rw [if_neg hc, brakeForce_val]
          norm_num
      · rw [hfz, hvz]
        by_cases hc : qneg (qmul maxSpeed (mkRat 1 2)) < (physVel s).z
        · rw [if_pos hc]
          intro _
          exact hc
        · rw [if_neg hc]
          intro hcontra
          exact absurd hcontra (by norm_num)
  · obtain ⟨hvz, hfz⟩ := carTick_fwd ⟨true, kb⟩ s rfl hnav
    refine ⟨hnav2, ?_, ?_, ?_⟩
    · rw [hvz, h77]
      by_cases hc : maxSpeed < (physVel s).z
      · rw [if_pos hc]
        have hM : (maxSpeed : ℚ) = 25 := rfl
        rw [hM]
        norm_num
      · rw [if_neg hc]
        exact hpv_lb
    · rw [hfz, accForce_val, brakeForce_val]
      norm_num
    · rw [hfz, accForce_val]
      intro hcontra
      exact absurd hcontra (by norm_num)

theorem low_inv_all (inputs : ℕ → Keys) (n : ℕ) : LowInv (carTrace inputs n) := by
  induction n with
  | zero =>
    have h0 : carTrace inputs 0 = initCarState := rfl
    rw [LowInv, h0]
    refine ⟨rfl, ?_, ?_, ?_⟩
    · decide
    · decide
    · intro hcontra
      exact absurd hcontra (by decide)
  | succ n ih => exact low_inv_step (inputs n) _ ih

/-- C2 counterexample: from rest, holding the backward key, the 39th
tick ends Car.update with forward speed -38/3, strictly below the
reverse cap -maxSpeed/2 = -12.5: the source only gates the braking
force on the cap and never clamps the velocity, so one further
force step overshoots the cap. -/
theorem reverse_cap_overshoot :
    (carTrace (fun _ => bwdKeys) 39).velocity.z < qneg (qmul maxSpeed (mkRat 1 2)) ∧
    (carTrace (fun _ => bwdKeys) 39).isNavigating = false := by
  decide!

/-- C2 amended: the forward cap holds: every Car.update with forward
input held (in manual mode) ends with forward speed at most maxSpeed,
and under forward-only input from rest the speed is monotonically
nondecreasing, never exceeds maxSpeed, and reaches exactly maxSpeed (at
tick 61); the reverse cap however is only a force cutoff: the speed can
overshoot -maxSpeed/2, and what holds instead is the bound
-(maxSpeed/2 + brakingForce * dt) = -77/6 on every reachable state
under any key sequence from rest. -/
theorem speed_caps :
    (∀ (k : Keys) (s : CarState), k.forward = true → s.isNavigating = false →
      (carUpdate k s).velocity.z ≤ maxSpeed) ∧
    (∀ n : ℕ, (carTrace (fun _ => fwdKeys) n).velocity.z ≤
        (carTrace (fun _ => fwdKeys) (n + 1)).velocity.z ∧
      (carTrace (fun _ => fwdKeys) n).velocity.z ≤ maxSpeed) ∧
    (carTrace (fun _ => fwdKeys) 61).velocity.z = maxSpeed ∧
    (∀ (inputs : ℕ → Keys) (n : ℕ),
      qneg (qadd (qmul maxSpeed (mkRat 1 2)) (qmul brakingForce fixedDt)) ≤
        (carTrace inputs n).velocity.z) := by
  have h61 : (carTrace (fun _ => fwdKeys) 61).velocity.z = maxSpeed := by decide!
  refine ⟨?_, ?_, h61, ?_⟩
  · intro k s hf hnav
    rw [carUpdate_eq_drive k s hnav]
    obtain ⟨hv, -⟩ := driveStep_fwd k (stabilize s) hf
    rw [hv]
    have hcs := (stabilize_fields s).1
    have hvz := (stabilize_fields s).2.1
    by_cases hc : maxSpeed < (stabilize s).currentSpeed
    · rw [if_pos hc]
    · rw [if_neg hc, hvz]
      rw [hcs] at hc
      exact not_lt.mp hc
  · intro n
    exact ⟨(fwd_inv_step _ (fwd_inv_all n)).2, (fwd_inv_all n).2.2.1⟩
  · intro inputs n
    have h := (low_inv_all inputs n).2.1
    have hconst : (qneg (qadd (qmul maxSpeed (mkRat 1 2)) (qmul brakingForce fixedDt)) : ℚ) =
        mkRat (-77) 6 := by
      rw [qneg_eq, qadd_eq, qmul_eq, qmul_eq, fixedDt_val, maxSpeed, brakingForce,
        Rat.mkRat_eq_div, Rat.mkRat_eq_div]
      norm_num
    rw [hconst]
    exact h

/-- Witness for the amended C2 theorem: the forward-cap clause applied
at rest, the monotone clause at tick 0. -/
theorem speed_caps_witness :
    (carUpdate fwdKeys initCarState).velocity.z ≤ maxSpeed ∧
    (carTrace (fun _ => fwdKeys) 0).velocity.z ≤
      (carTrace (fun _ => fwdKeys) 1).velocity.z :=
  ⟨speed_caps.1 fwdKeys initCarState rfl rfl, (speed_caps.2.1 0).1⟩

/-- C4 counterexample: two ticks of forward input from rest leave a
pending drive force; on the following tick no key is held and the mode
is manual, yet the magnitude of the longitudinal velocity grows from
5/12 to 17/24, because the physics step integrates the pending force
before the idle damping runs. -/
theorem idle_tick_speed_can_increase :
    (carTrace (fun n => if n < 2 then fwdKeys else idleKeys) 2).velocity.z ≠ 0 ∧
    (carTrace (fun n => if n < 2 then fwdKeys else idleKeys) 2).isNavigating = false ∧
    qabs (carTrace (fun n => if n < 2 then fwdKeys else idleKeys) 2).velocity.z <
      qabs (carTrace (fun n => if n < 2 then fwdKeys else idleKeys) 3).velocity.z := by
  decide!

/-- C4 amended: on an idle manual tick with no pending drive force
(which holds from the second consecutive idle tick on, since an idle
tick applies no force), the longitudinal speed magnitude strictly
decreases while nonzero, is clamped to exactly zero once the damped
value falls below the 0.05 threshold, stays at zero, and never flips
sign; and the tick again leaves manual mode and a zero pending force. -/
theorem idle_decay (s : CarState) (hnav : s.isNavigating = false)
    (hforce : s.force.z = 0) :
    (s.velocity.z ≠ 0 →
      qabs (carTick idleKeys s).velocity.z < qabs s.velocity.z) ∧
    (qabs (qmul s.velocity.z dampingFactor) < velocityThreshold →
      (carTick idleKeys s).velocity.z = 0) ∧
    (s.velocity.z = 0 → (carTick idleKeys s).velocity.z = 0) ∧
    0 ≤ qmul (carTick idleKeys s).velocity.z s.velocity.z ∧
    (carTick idleKeys s).isNavigating = false ∧
    (carTick idleKeys s).force.z = 0 := by
  obtain ⟨hvz, hfz⟩ := carTick_idle idleKeys s rfl rfl hnav
  have hpv : (physVel s).z = s.velocity.z := by
    rw [physVel_z_eq, hforce]
    ring
  rw [hpv] at hvz
  have hnav2 := carTick_isNavigating idleKeys s hnav
  refine ⟨?_, ?_, ?_, ?_, hnav2, hfz⟩
  · intro hz
    have habs : 0 < |s.velocity.z| := abs_pos.mpr hz
    rw [hvz]
    by_cases hc : qabs (qmul s.velocity.z dampingFactor) < velocityThreshold
    · rw [if_pos hc]
      simp only [qabs_eq, abs_zero]
      exact habs
    · rw [if_neg hc]
      simp only [qabs_eq]
      rw [qmul_eq, dampingFactor_val, abs_mul]
      have h85 : |(85 / 100 : ℚ)| = 85 / 100 := by norm_num
      rw [h85]
      nlinarith [habs]
  · intro hc
    rw [hvz, if_pos hc]
  · intro hz
    rw [hvz, hz]
    rw [if_pos (by decide)]
  · rw [hvz]
    by_cases hc : qabs (qmul s.velocity.z dampingFactor) < velocityThreshold
    · rw [if_pos hc, qmul_eq, zero_mul]
    · rw [if_neg hc, qmul_eq, qmul_eq, dampingFactor_val]
      nlinarith [mul_self_nonneg s.velocity.z]

/-- Witness for the amended C4 theorem at a manual state rolling at
10 m/s with no pending force. -/
theorem idle_decay_witness :
    (({ initCarState with velocity := ⟨0, 0, 10⟩ } : CarState).velocity.z ≠ 0 →
      qabs (carTick idleKeys { initCarState with velocity := ⟨0, 0, 10⟩ }).velocity.z <
        qabs ({ initCarState with velocity := ⟨0, 0, 10⟩ } : CarState).velocity.z) ∧
    (qabs (qmul ({ initCarState with velocity := ⟨0, 0, 10⟩ } : CarState).velocity.z
        dampingFactor) < velocityThreshold →
      (carTick idleKeys { initCarState with velocity := ⟨0, 0, 10⟩ }).velocity.z = 0) ∧
    (({ initCarState with velocity := ⟨0, 0, 10⟩ } : CarState).velocity.z = 0 →
      (carTick idleKeys { initCarState with velocity := ⟨0, 0, 10⟩ }).velocity.z = 0) ∧
    0 ≤ qmul (carTick idleKeys { initCarState with velocity := ⟨0, 0, 10⟩ }).velocity.z
        ({ initCarState with velocity := ⟨0, 0, 10⟩ } : CarState).velocity.z ∧
    (carTick idleKeys { initCarState with velocity := ⟨0, 0, 10⟩ }).isNavigating = false ∧
    (carTick idleKeys { initCarState with velocity := ⟨0, 0, 10⟩ }).force.z = 0 :=
  idle_decay { initCarState with velocity := ⟨0, 0, 10⟩ } rfl rfl

theorem navStep_velocity_x (t : Vec3) (s : CarState) (h : s.velocity.x = 0) :
    (navStep t s).velocity.x = 0 := by
  unfold navStep applyForce
  repeat' split
  all_goals first
  | rfl
  | exact h

theorem navStep_force_x (t : Vec3) (s : CarState) :
    (navStep t s).force.x = s.force.x := by
  unfold navStep applyForce
  repeat' split
  all_goals first
  | rfl
  | (show qadd s.force.x 0 = s.force.x; rw [qadd_eq, add_zero])

theorem navStep_position (t : Vec3) (s : CarState) :
    (navStep t s).position = s.position := by
  unfold navStep applyForce
  repeat' split
  all_goals rfl

theorem carUpdate_velocity_x (k : Keys) (s : CarState) :
    (carUpdate k s).velocity.x = 0 := by
  unfold carUpdate
  dsimp only
  have h5 := stabilize_velocity_x s
  split
  · cases htgt : (stabilize s).navigationTarget with
    | none => exact driveStep_velocity_x k (stabilize s) h5
    | some target => exact navStep_velocity_x target (stabilize s) h5
  · exact driveStep_velocity_x k (stabilize s) h5

theorem carUpdate_force_x (k : Keys) (s : CarState) :
    (carUpdate k s).force.x = s.force.x := by
  unfold carUpdate
  dsimp only
  have h5 : (stabilize s).force.x = s.force.x :=
    congrArg Vec3.x (stabilize_fields s).2.2.1
  split
  · cases htgt : (stabilize s).navigationTarget with
    | none => exact (driveStep_force_x k (stabilize s)).trans h5
    | some target => exact (navStep_force_x target (stabilize s)).trans h5
  · exact (driveStep_force_x k (stabilize s)).trans h5

theorem carUpdate_position_x (k : Keys) (s : CarState) :
    (carUpdate k s).position.x = s.position.x := by
  unfold carUpdate
  dsimp only
  have h5 := (stabilize_fields s).2.2.2.2.2.1
  split
  · cases htgt : (stabilize s).navigationTarget with
    | none => exact (congrArg Vec3.x (driveStep_position k (stabilize s))).trans h5
    | some target => exact (congrArg Vec3.x (navStep_position target (stabilize s))).trans h5
  · exact (congrArg Vec3.x (driveStep_position k (stabilize s))).trans h5

theorem carTick_x_locked (k : Keys) (s : CarState) (hv : s.velocity.x = 0)
    (hf : s.force.x = 0) :
    (carTick k s).velocity.x = 0 ∧ (carTick k s).force.x = 0 ∧
    (carTick k s).position.x = s.position.x := by
  have hpvx : (physVel s).x = 0 := by
    rw [physVel_x, hv, hf, qmul_eq, qmul_eq, qadd_eq]
    ring
  have hfx : (physStep s).force.x = 0 := congrArg Vec3.x (physStep_force s)
  have hpx : (physStep s).position.x = s.position.x := by
    rw [physStep_position_x, hpvx, qmul_eq, qadd_eq]
    ring
  unfold carTick
  refine ⟨carUpdate_velocity_x k (physStep s), ?_, ?_⟩
  · rw [carUpdate_force_x k (physStep s)]
    exact hfx
  · rw [carUpdate_position_x k (physStep s)]
    exact hpx

set_option maxHeartbeats 2000000 in
theorem navRun_x (n : ℕ) :
    (navRun n).velocity.x = 0 ∧ (navRun n).force.x = 0 ∧ (navRun n).position.x = 0 := by
  induction n with
  | zero => exact ⟨rfl, rfl, rfl⟩
  | succ n ih =>
    obtain ⟨hv, hf, hp⟩ := ih
    obtain ⟨hv2, hf2, hp2⟩ := carTick_x_locked idleKeys (navRun n) hv hf
    rw [hp] at hp2
    exact ⟨hv2, hf2, hp2⟩

theorem navRun_add (m k : ℕ) :
    navRun (m + k) = (carTick idleKeys)^[k] (navRun m) := by
  induction k with
  | zero => rfl
  | succ k ih =>
    have h1 : navRun (m + (k + 1)) = carTick idleKeys (navRun (m + k)) := rfl
    rw [h1, ih, Function.iterate_succ_apply']

set_option maxRecDepth 4000 in
theorem navRun_60 : navRun 60 = navMid60 := by
  decide!

set_option maxRecDepth 4000 in
theorem navRun_120 : navRun 120 = navMid120 := by
  have h := navRun_add 60 60
  rw [show (120 : ℕ) = 60 + 60 from rfl, h, navRun_60]
  decide!

set_option maxRecDepth 4000 in
theorem navRun_180 : navRun 180 = navMid180 := by
  have h := navRun_add 120 60
  rw [show (180 : ℕ) = 120 + 60 from rfl, h, navRun_120]
  decide!

set_option maxRecDepth 4000 in
theorem navRun_220 : navRun 220 = navEnd220 := by
  have h := navRun_add 180 40
  rw [show (220 : ℕ) = 180 + 40 from rfl, h, navRun_180]
  decide!

/-- C6 counterexample: for the navigateTo call the timeline UI actually
makes (target (8, 0, 100), lateral offset 8), the vehicle position
NEVER comes within the arrival threshold 2 of the target: the
controller locks the X velocity to zero every tick, so the lateral
distance of 8 units persists forever, and navigation instead terminates
through the close-enough-on-Z branch (shown by the terminal state at
tick 220: navigation off, target cleared, velocity zeroed). -/
theorem navigation_never_reaches_target :
    (∀ n : ℕ, qmul navigationArrivalDistance navigationArrivalDistance <
      dist2 (navRun n).position (withColliderOffset ⟨8, 0, 100⟩)) ∧
    (navRun 220).isNavigating = false ∧
    (navRun 220).navigationTarget = none ∧
    (navRun 220).velocity = ⟨0, 0, 0⟩ := by
  have harr : (qmul navigationArrivalDistance navigationArrivalDistance : ℚ) = 4 := by
    rw [qmul_eq, navigationArrivalDistance]
    norm_num
  have hclosed : (navRun 220).isNavigating = false ∧
      (navRun 220).navigationTarget = none ∧ (navRun 220).velocity = ⟨0, 0, 0⟩ := by
    rw [navRun_220]
    exact ⟨rfl, rfl, rfl⟩
  refine ⟨?_, hclosed.1, hclosed.2.1, hclosed.2.2⟩
  intro n
  have hx := (navRun_x n).2.2
  rw [harr, dist2_eq, hx]
  have htx : (withColliderOffset ⟨8, 0, 100⟩ : Vec3).x = 8 := rfl
  rw [htx]
  have h1 := mul_self_nonneg ((navRun n).position.y - (withColliderOffset ⟨8, 0, 100⟩).y)
  have h2 := mul_self_nonneg ((navRun n).position.z - (withColliderOffset ⟨8, 0, 100⟩).z)
  have h64 : ((0 : ℚ) - 8) * ((0 : ℚ) - 8) = 64 := by norm_num
  rw [h64]
  linarith [h1, h2]

set_option maxRecDepth 4000 in
/-- C6 amended: after sufficiently many ticks (at tick 220 for this
run) navigation terminates with the Z coordinate within 0.5 of the
target Z (in particular within the arrival threshold 2 along the travel
axis), the velocity zeroed, the target cleared and control back in
manual mode, and the vehicle then stays put; the lateral offset of the
target is never closed, so convergence is in Z only, not in 3D
distance. -/
theorem navigation_converges_in_z :
    (navRun 220).isNavigating = false ∧
    (navRun 220).navigationTarget = none ∧
    (navRun 220).velocity = ⟨0, 0, 0⟩ ∧
    qabs (qsub (navRun 220).position.z (withColliderOffset ⟨8, 0, 100⟩).z) ≤ mkRat 1 2 ∧
    qabs (qsub (navRun 220).position.z (withColliderOffset ⟨8, 0, 100⟩).z) ≤
      navigationArrivalDistance ∧
    (navRun 240).position.z = (navRun 220).position.z := by
  have h := navRun_add 220 20
  rw [show (240 : ℕ) = 220 + 20 from rfl, h, navRun_220]
  decide!

end Journey
